import Mathlib

/-! Push-notification handler (`server/handler/push/push.go`)

A shallow embedding of `Handler.Handle`.  The handler talks to four external
collaborators (the Pub/Sub middleware, `encoding/json`, Firestore and Firebase
Cloud Messaging); each of them is a field of `Env`, and every call the handler
makes on them is recorded, in program order, in a trace of `Event`s.  The
unspecified iteration order of Go's `range` over a map is a field of `Env` too;
the statements about the loop assume that it lists the keys of the map, each
once (`(env.rangeOrder m).Perm m.keys`).

The definitions come first: the data model, the handler, the observations on a
trace, the concrete runs and the vocabulary of the statements.  The lemmas on
the loop and on a run follow, then the properties C1 to C10.
-/

namespace push

/-! ## Data model -/

/-- A Go `error` value, represented by its message. -/
abbrev GoError := String

/-- The value stored under a device token in the `fcm_tokens` map
(`interface{}` in the source; the handler never inspects it). -/
abbrev TokenMeta := String

/-- The Go value `map[string]interface{}` held in `tokensMap`: a finite map with
unique keys, the keys being the device tokens. -/
abbrev TokenMap := AList (fun _ : String => TokenMeta)

/-- A Firestore field value (`interface{}`): either a `map[string]interface{}`
or a value of any other dynamic type. -/
inductive FieldValue where
  | map (m : TokenMap)
  | other (raw : String)
  deriving DecidableEq

/-- The result of `doc.Data()`: the user document as a list of fields. -/
abbrev DocData := List (String × FieldValue)

/-- Modelled from the spec: `types.PushNotificationPayload` is declared in
`server/common/types`, which is not part of the sources; its fields are those of
the inbound event schema (`title`, `body`, `user_id`, `data`, `collapse_key`). -/
structure PushNotificationPayload where
  Title : String
  Body : String
  UserID : String
  Data : List (String × String)
  CollapseKey : String
  deriving DecidableEq

/-- The `pubsub.Message` found in the request context; only `Message.Data` is read. -/
structure PubSubMessage where
  Data : List UInt8
  deriving DecidableEq

end push

namespace messaging

/-- The Go struct `messaging.Notification`, with the fields the handler sets. -/
structure Notification where
  Title : String
  Body : String
  deriving DecidableEq

/-- The Go struct `messaging.AndroidNotification`, with the fields the handler sets. -/
structure AndroidNotification where
  Icon : String
  Color : String
  deriving DecidableEq

/-- The Go struct `messaging.AndroidConfig`, with the fields the handler sets. -/
structure AndroidConfig where
  CollapseKey : String
  Notification : AndroidNotification
  deriving DecidableEq

/-- The Go struct `messaging.Message`, with the fields the handler sets. -/
structure Message where
  Data : List (String × String)
  Notification : messaging.Notification
  Token : String
  Android : AndroidConfig
  deriving DecidableEq

/-- Modelled from the spec: the error returned by the provider's send operation
(`ProviderError{code, retryable: bool}`); the provider client is not part of the
sources. -/
structure ProviderError where
  code : String
  retryable : Bool
  deriving DecidableEq

end messaging

namespace firestore

/-- The Go struct `firestore.Update`, with the fields the handler sets. -/
structure Update where
  Path : String
  Value : push.FieldValue
  deriving DecidableEq

end firestore

namespace push

/-- Modelled from the spec: the three delivery statuses of a `DeliveryOutcome`.
The handler has no such type (it only tests `err != nil`); the statuses are
used to state the claims. -/
inductive DeliveryStatus where
  | Success
  | InvalidToken
  | TransientError
  deriving DecidableEq

/-- Modelled from the spec: the classification policy, which the handler does
not implement; it is fed by the provider error's `retryable` flag: a send
without error is `Success`, a retryable error is `TransientError`, any other
error is `InvalidToken`. -/
def classify : Except messaging.ProviderError String → DeliveryStatus
  | .ok _ => .Success
  | .error e => if e.retryable then .TransientError else .InvalidToken

/-- The external collaborators of one run of the handler. -/
structure Env where
  /-- The result of `c.Locals(pubsub.LocalsKey).(*pubsub.Message)`: `none` when the type assertion fails. -/
  locals : Option PubSubMessage
  /-- The function `json.Unmarshal` into a `types.PushNotificationPayload`. -/
  unmarshal : List UInt8 → Except GoError PushNotificationPayload
  /-- The error returned by `h.google.InitFirestore`, if any. -/
  initFirestore : Option GoError
  /-- The error returned by `h.google.InitMessaging`, if any. -/
  initMessaging : Option GoError
  /-- The call `Firestore.Collection("users").Doc(userID).Get` followed by `doc.Data()`. -/
  get : String → Except GoError DocData
  /-- The call `h.google.Messaging.Send`. -/
  send : messaging.Message → Except messaging.ProviderError String
  /-- The error returned by `Firestore.Collection("users").Doc(userID).Update`, if any. -/
  update : String → List firestore.Update → Option GoError
  /-- The order in which `range` produces the keys of a map. -/
  rangeOrder : TokenMap → List String

/-- A call made by the handler on one of its collaborators. -/
inductive Event where
  | initFirestore
  | initMessaging
  | get (userID : String)
  | send (message : messaging.Message)
  | log (line : String)
  | update (userID : String) (updates : List firestore.Update)
  deriving DecidableEq

/-- What the handler hands to the framework: `c.Next(err)`, `c.SendStatus(code)`,
or a run-time panic of the unchecked type assertion on `fcm_tokens`. -/
inductive Response where
  | next (err : GoError)
  | sendStatus (code : Nat)
  | crashed
  deriving DecidableEq

/-- The outcome of one run: the response and the calls made, in order. -/
structure Result where
  response : Response
  trace : List Event
  deriving DecidableEq

/-! ## The handler -/

/-- The constant icon of the Android notification (line 88). -/
def androidIcon : String :=
  "https://firebasestorage.googleapis.com/v0/b/gatrabali.appspot.com/o/app%2Fnotification.png?alt=media&token=b76afe54-fc9c-4a05-addb-3f9eaaee7d2f"

/-- The constant colour of the Android notification (line 89). -/
def androidColor : String := "#4CB050"

/-- Lines 81-84: the notification shared by all tokens. -/
def notification (payload : PushNotificationPayload) : messaging.Notification :=
  { Title := payload.Title, Body := payload.Body }

/-- Lines 87-96: the Android configuration shared by all tokens; the collapse
key is assigned only when the payload has a non-empty one. -/
def androidConfig (payload : PushNotificationPayload) : messaging.AndroidConfig :=
  let androidNotification : messaging.AndroidNotification :=
    { Icon := androidIcon, Color := androidColor }
  let androidConfig : messaging.AndroidConfig :=
    { CollapseKey := "", Notification := androidNotification }
  if payload.CollapseKey ≠ "" then
    { androidConfig with CollapseKey := payload.CollapseKey }
  else
    androidConfig

/-- Lines 101-106: the message built for one token. -/
def message (payload : PushNotificationPayload) (token : String) : messaging.Message :=
  { Data := payload.Data
    Notification := notification payload
    Token := token
    Android := androidConfig payload }

/-- Lines 100-116: the loop `for token := range tokensMap`, run over the keys in
the order `range` produces them.  The state is the map (mutated by `delete`) and
the trace.  A key that is no longer in the map when its turn comes is not
produced (Go's rule for entries removed during iteration). -/
def rangeLoop (env : Env) (payload : PushNotificationPayload) :
    List String → TokenMap × List Event → TokenMap × List Event
  | [], st => st
  | token :: rest, (tokensMap, trace) =>
    if token ∈ tokensMap.keys then
      let msg := message payload token
      match env.send msg with
      | .error err =>
        rangeLoop env payload rest
          (tokensMap.erase token,
            trace ++ [Event.send msg, Event.log ("Notification not sent: " ++ err.code)])
      | .ok resp =>
        rangeLoop env payload rest
          (tokensMap, trace ++ [Event.send msg, Event.log ("Notification sent: " ++ resp)])
    else
      rangeLoop env payload rest (tokensMap, trace)

/-- Lines 32-128: the function returned by `Handler.Handle`, applied to one request. -/
def Handle (env : Env) : Result :=
  match env.locals with
  | none => ⟨.next "unable to retrieve PubSub message from c.Locals", []⟩
  | some msg =>
    -- validate payload
    match env.unmarshal msg.Data with
    | .error err => ⟨.next err, []⟩
    | .ok payload =>
      if payload.Title = "" ∨ payload.Body = "" ∨ payload.UserID = "" then
        ⟨.next "Invalid message payload: missing user_id, title or body", []⟩
      else
        -- init clients
        match env.initFirestore with
        | some err => ⟨.next err, [.initFirestore]⟩
        | none =>
          match env.initMessaging with
          | some err => ⟨.next err, [.initFirestore, .initMessaging]⟩
          | none =>
            -- preparing to push
            let trace := [Event.initFirestore, Event.initMessaging, Event.get payload.UserID]
            match env.get payload.UserID with
            | .error err => ⟨.next err, trace⟩
            | .ok user =>
              match user.lookup "fcm_tokens" with
              | none => ⟨.next ("User " ++ payload.UserID ++ " doesn't have FCM tokens"), trace⟩
              | some (.other _) => ⟨.crashed, trace⟩
              | some (.map tokensMap) =>
                if tokensMap.keys.length = 0 then
                  ⟨.next ("User " ++ payload.UserID ++ " doesn't have FCM tokens"), trace⟩
                else
                  -- loop through tokens and send the notification
                  let (tokensMap, trace) :=
                    rangeLoop env payload (env.rangeOrder tokensMap) (tokensMap, trace)
                  -- store back the remaining tokens to user document
                  let updates : List firestore.Update :=
                    [{ Path := "fcm_tokens", Value := .map tokensMap }]
                  let trace := trace ++ [Event.update payload.UserID updates]
                  match env.update payload.UserID updates with
                  | some err =>
                    ⟨.next ("Error saving fcm_tokens back to user doc: " ++ err), trace⟩
                  | none => ⟨.sendStatus 200, trace⟩

/-! ## Observations on a trace -/

/-- The messages handed to the provider, in order. -/
def sentMessages : List Event → List messaging.Message
  | [] => []
  | .send m :: rest => m :: sentMessages rest
  | _ :: rest => sentMessages rest

/-- The store writes performed, in order: user id and updates. -/
def storeWrites : List Event → List (String × List firestore.Update)
  | [] => []
  | .update u us :: rest => (u, us) :: storeWrites rest
  | _ :: rest => storeWrites rest

/-- The store reads performed, in order: the user ids read. -/
def storeReads : List Event → List String
  | [] => []
  | .get u :: rest => u :: storeReads rest
  | _ :: rest => storeReads rest

/-- The token maps written to the `fcm_tokens` field, in order. -/
def writtenMaps (trace : List Event) : List TokenMap :=
  (storeWrites trace).flatMap fun w =>
    w.2.filterMap fun u =>
      match u.Path, u.Value with
      | "fcm_tokens", .map m => some m
      | _, _ => none

/-! ## Concrete runs -/

/-- The request of the end-to-end scenarios. -/
def payloadHi : PushNotificationPayload :=
  { Title := "Hi", Body := "Bo", UserID := "u1", Data := [], CollapseKey := "" }

/-- The stored tokens `t1`, `t2`. -/
def tokensT1T2 : TokenMap := (AList.singleton "t2" "").insert "t1" ""

/-- An environment around `payloadHi`: the user document holds `tokens`, the
provider answers `send`, the store write returns `upd`, and `range` produces
the keys in `order`. -/
def envWith (tokens : TokenMap) (send : String → Except messaging.ProviderError String)
    (upd : Option GoError) (order : List String) : Env :=
  { locals := some ⟨[]⟩
    unmarshal := fun _ => .ok payloadHi
    initFirestore := none
    initMessaging := none
    get := fun u => if u = "u1" then .ok [("fcm_tokens", .map tokens)] else .error "not found"
    send := fun m => send m.Token
    update := fun _ _ => upd
    rangeOrder := fun _ => order }

/-- The provider of scenario 6: `t1` is unregistered, every other token is fine. -/
def sendT1Invalid (token : String) : Except messaging.ProviderError String :=
  if token = "t1" then .error ⟨"UNREGISTERED", false⟩ else .ok ("projects/p/messages/" ++ token)

/-- A provider for which every send succeeds. -/
def sendAllOk (token : String) : Except messaging.ProviderError String :=
  .ok ("projects/p/messages/" ++ token)

/-- A provider for which every send fails with a non-retryable error. -/
def sendAllInvalid (_ : String) : Except messaging.ProviderError String :=
  .error ⟨"UNREGISTERED", false⟩

/-- A provider that is temporarily unavailable: every send fails with a
retryable error. -/
def sendAllTransient (_ : String) : Except messaging.ProviderError String :=
  .error ⟨"UNAVAILABLE", true⟩

/-- The stored token `t1` alone. -/
def tokensT1 : TokenMap := AList.singleton "t1" ""

/-- An environment whose decoded payload is `payload` and whose store read
returns `read`; both clients initialise. -/
def envDecoding (payload : PushNotificationPayload) (read : Except GoError DocData) : Env :=
  { locals := some ⟨[]⟩
    unmarshal := fun _ => .ok payload
    initFirestore := none
    initMessaging := none
    get := fun _ => read
    send := fun m => sendAllOk m.Token
    update := fun _ _ => none
    rangeOrder := fun m => m.keys }

/-- The request of the scenarios with its title left empty. -/
def payloadNoTitle : PushNotificationPayload :=
  { Title := "", Body := "Bo", UserID := "u1", Data := [], CollapseKey := "" }

/-- The request of the scenarios with a data map and a collapse key. -/
def payloadNews : PushNotificationPayload :=
  { Title := "Hi", Body := "Bo", UserID := "u1", Data := [("uri", "/news/1")],
    CollapseKey := "news" }

/-! ## Vocabulary of the statements -/

/-- The calls one iteration of the loop makes for `token`: the send and the log line. -/
def tokenEvents (env : Env) (payload : PushNotificationPayload) (token : String) : List Event :=
  match env.send (message payload token) with
  | .error err =>
    [Event.send (message payload token), Event.log ("Notification not sent: " ++ err.code)]
  | .ok resp =>
    [Event.send (message payload token), Event.log ("Notification sent: " ++ resp)]

/-- The send for `token` returned an error. -/
def sendFailed (env : Env) (payload : PushNotificationPayload) (token : String) : Bool :=
  match env.send (message payload token) with
  | .error _ => true
  | .ok _ => false

/-- The map `m` without the entries whose send failed. -/
def survivors (env : Env) (payload : PushNotificationPayload) (m : TokenMap) : TokenMap :=
  ⟨m.entries.filter (fun e => !sendFailed env payload e.1),
    List.NodupKeys.sublist (List.filter_sublist _) m.nodupKeys⟩

/-- The request is valid and its tokens are fetched: the Pub/Sub message is
present and decodes to `payload`, the three required fields are non-empty, both
clients initialise, and the user document is read and holds the map `tokensMap`
under `fcm_tokens`. -/
def Fetches (env : Env) (payload : PushNotificationPayload) (tokensMap : TokenMap) : Prop :=
  (∃ msg, env.locals = some msg ∧ env.unmarshal msg.Data = .ok payload) ∧
  payload.Title ≠ "" ∧ payload.Body ≠ "" ∧ payload.UserID ≠ "" ∧
  env.initFirestore = none ∧ env.initMessaging = none ∧
  ∃ user, env.get payload.UserID = .ok user ∧
    user.lookup "fcm_tokens" = some (.map tokensMap)

/-- The calls made up to and including the store read. -/
def fetchTrace (payload : PushNotificationPayload) : List Event :=
  [Event.initFirestore, Event.initMessaging, Event.get payload.UserID]

/-- The update list the handler passes to the store write for the map `written`. -/
def fcmUpdate (written : TokenMap) : List firestore.Update :=
  [{ Path := "fcm_tokens", Value := .map written }]

/-- The response after the store write returned `r`. -/
def writeResponse (r : Option GoError) : Response :=
  match r with
  | some err => .next ("Error saving fcm_tokens back to user doc: " ++ err)
  | none => .sendStatus 200

/-- The environment `env` with `range` producing keys in the order `order`. -/
def withRangeOrder (env : Env) (order : TokenMap → List String) : Env :=
  { env with rangeOrder := order }

/-- The property of claim C1 as it is stated, for one run: a single token map is
written, and its tokens are the original ones minus those classified
`InvalidToken`. -/
def WritesOriginalMinusInvalid (env : Env) (payload : PushNotificationPayload)
    (m : TokenMap) : Prop :=
  ∃ written : TokenMap, writtenMaps (Handle env).trace = [written] ∧
    ∀ t, t ∈ written.keys ↔
      t ∈ m.keys ∧ classify (env.send (message payload t)) ≠ .InvalidToken

end push

namespace push

/-! ## The loop -/

theorem classify_eq_success (r : Except messaging.ProviderError String) :
    classify r = .Success ↔ ∃ resp, r = .ok resp := by
  cases r with
  | ok resp => simp [classify]
  | error e => cases h : e.retryable <;> simp [classify, h]

theorem sendFailed_eq_false (env : Env) (payload : PushNotificationPayload) (token : String) :
    sendFailed env payload token = false ↔
      classify (env.send (message payload token)) = .Success := by
  rw [classify_eq_success]
  unfold sendFailed
  cases env.send (message payload token) <;> simp

theorem sendFailed_eq_true (env : Env) (payload : PushNotificationPayload) (token : String) :
    sendFailed env payload token = true ↔
      classify (env.send (message payload token)) ≠ .Success := by
  rw [Ne, ← sendFailed_eq_false]
  cases sendFailed env payload token <;> simp

theorem rangeLoop_cons_ok (env : Env) (payload : PushNotificationPayload) (token : String)
    (rest : List String) (m : TokenMap) (tr : List Event) (hmem : token ∈ m.keys)
    (hs : sendFailed env payload token = false) :
    rangeLoop env payload (token :: rest) (m, tr)
      = rangeLoop env payload rest (m, tr ++ tokenEvents env payload token) := by
  unfold sendFailed at hs
  unfold tokenEvents
  rw [rangeLoop, if_pos hmem]
  cases h : env.send (message payload token) with
  | ok resp => simp only [h]
  | error e => simp [h] at hs

theorem rangeLoop_cons_error (env : Env) (payload : PushNotificationPayload) (token : String)
    (rest : List String) (m : TokenMap) (tr : List Event) (hmem : token ∈ m.keys)
    (hs : sendFailed env payload token = true) :
    rangeLoop env payload (token :: rest) (m, tr)
      = rangeLoop env payload rest (m.erase token, tr ++ tokenEvents env payload token) := by
  unfold sendFailed at hs
  unfold tokenEvents
  rw [rangeLoop, if_pos hmem]
  cases h : env.send (message payload token) with
  | ok resp => simp [h] at hs
  | error e => simp only [h]

/-- When `range` produces distinct keys of the map, every one of them is
visited: the trace grows by the events of each key in turn. -/
theorem rangeLoop_visits_all (env : Env) (payload : PushNotificationPayload) :
    ∀ (order : List String) (m : TokenMap) (tr : List Event),
      order.Nodup → (∀ k ∈ order, k ∈ m.keys) →
      (rangeLoop env payload order (m, tr)).2
        = tr ++ order.flatMap (tokenEvents env payload) := by
  intro order
  induction order with
  | nil => intro m tr _ _; simp [rangeLoop]
  | cons token rest ih =>
    intro m tr hnd hmem
    have hnd2 : token ∉ rest ∧ rest.Nodup := List.nodup_cons.mp hnd
    have htok : token ∈ m.keys := hmem token (List.mem_cons_self _ _)
    cases hs : sendFailed env payload token with
    | false =>
      rw [rangeLoop_cons_ok env payload token rest m tr htok hs]
      have hrest : ∀ k ∈ rest, k ∈ m.keys := fun k hk => hmem k (List.mem_cons_of_mem _ hk)
      rw [ih m (tr ++ tokenEvents env payload token) hnd2.2 hrest]
      simp [List.flatMap_cons, List.append_assoc]
    | true =>
      rw [rangeLoop_cons_error env payload token rest m tr htok hs]
      have hrest : ∀ k ∈ rest, k ∈ (m.erase token).keys := by
        intro k hk
        have hne : k ≠ token := fun h => hnd2.1 (h ▸ hk)
        exact AList.mem_keys.mp
          (AList.mem_erase.mpr ⟨hne, AList.mem_keys.mpr (hmem k (List.mem_cons_of_mem _ hk))⟩)
      rw [ih (m.erase token) (tr ++ tokenEvents env payload token) hnd2.2 hrest]
      simp [List.flatMap_cons, List.append_assoc]

/-! ## The map left by the loop -/

theorem kerase_eq_filter (a : String) :
    ∀ l : List (Sigma fun _ : String => TokenMeta), l.NodupKeys →
      List.kerase a l = l.filter (fun e => decide (e.1 ≠ a))
  | [], _ => by simp
  | s :: l, hnd => by
    have hl : l.NodupKeys := List.nodupKeys_of_nodupKeys_cons hnd
    by_cases h : a = s.1
    · have hnot : a ∉ l.keys := h ▸ List.not_mem_keys_of_nodupKeys_cons hnd
      rw [List.kerase_cons_eq h, List.filter_cons_of_neg (by simp [h]),
        ← kerase_eq_filter a l hl, List.kerase_of_not_mem_keys hnot]
    · rw [List.kerase_cons_ne h, List.filter_cons_of_pos (by simpa using fun h2 => h h2.symm),
        kerase_eq_filter a l hl]

theorem keys_survivors (env : Env) (payload : PushNotificationPayload) (m : TokenMap) :
    (survivors env payload m).keys = m.keys.filter (fun k => !sendFailed env payload k) := by
  simp only [survivors, AList.keys, List.keys, List.filter_map]
  rfl

theorem mem_keys_survivors (env : Env) (payload : PushNotificationPayload) (m : TokenMap)
    (k : String) :
    k ∈ (survivors env payload m).keys ↔ k ∈ m.keys ∧ sendFailed env payload k = false := by
  rw [keys_survivors]
  simp [List.mem_filter]

theorem rangeLoop_entries (env : Env) (payload : PushNotificationPayload) :
    ∀ (order : List String) (m : TokenMap) (tr : List Event),
      (rangeLoop env payload order (m, tr)).1.entries
        = m.entries.filter (fun e => !(decide (e.1 ∈ order) && sendFailed env payload e.1)) := by
  intro order
  induction order with
  | nil => intro m tr; simp [rangeLoop]
  | cons token rest ih =>
    intro m tr
    by_cases hmem : token ∈ m.keys
    · cases hs : sendFailed env payload token with
      | false =>
        rw [rangeLoop_cons_ok env payload token rest m tr hmem hs, ih]
        apply List.filter_congr
        intro e _
        by_cases he : e.1 = token
        · simp [he, hs]
        · simp [he]
      | true =>
        rw [rangeLoop_cons_error env payload token rest m tr hmem hs, ih]
        show List.filter _ (List.kerase token m.entries) = _
        rw [kerase_eq_filter token m.entries m.nodupKeys, List.filter_filter]
        apply List.filter_congr
        intro e _
        by_cases he : e.1 = token
        · simp [he, hs]
        · simp [he]
    · rw [rangeLoop, if_neg hmem, ih]
      apply List.filter_congr
      intro e he
      have hne : e.1 ≠ token := fun h => hmem (h ▸ List.mem_keys_of_mem he)
      simp [hne]

/-- When `range` produces exactly the keys of the map, the loop leaves the map
without the entries whose send failed. -/
theorem rangeLoop_map (env : Env) (payload : PushNotificationPayload) (order : List String)
    (m : TokenMap) (tr : List Event) (ho : order.Perm m.keys) :
    (rangeLoop env payload order (m, tr)).1 = survivors env payload m := by
  apply AList.ext
  rw [rangeLoop_entries]
  apply List.filter_congr
  intro e he
  have : e.1 ∈ order := ho.mem_iff.mpr (List.mem_keys_of_mem he)
  simp [this]

/-- When `range` produces exactly the keys of the map, the loop appends the
events of each key in turn. -/
theorem rangeLoop_trace (env : Env) (payload : PushNotificationPayload) (order : List String)
    (m : TokenMap) (tr : List Event) (ho : order.Perm m.keys) :
    (rangeLoop env payload order (m, tr)).2 = tr ++ order.flatMap (tokenEvents env payload) :=
  rangeLoop_visits_all env payload order m tr (ho.nodup_iff.mpr m.keys_nodup)
    (fun _ hk => ho.mem_iff.mp hk)

/-! ## The path to the loop -/

theorem Handle_of_fetches (env : Env) (payload : PushNotificationPayload) (m : TokenMap)
    (hf : Fetches env payload m) (hne : m.keys ≠ []) :
    Handle env =
      ⟨writeResponse (env.update payload.UserID
          (fcmUpdate (rangeLoop env payload (env.rangeOrder m) (m, fetchTrace payload)).1)),
        (rangeLoop env payload (env.rangeOrder m) (m, fetchTrace payload)).2 ++
          [Event.update payload.UserID
            (fcmUpdate (rangeLoop env payload (env.rangeOrder m) (m, fetchTrace payload)).1)]⟩ := by
  obtain ⟨⟨msg, hl, hu⟩, ht, hb, hi, hif, him, user, hg, hlk⟩ := hf
  have hlen : ¬ m.keys.length = 0 := fun h => hne (List.length_eq_zero.mp h)
  unfold Handle
  simp only [hl, hu, ht, hb, hi, hif, him, hg, hlk, hlen, or_self, if_false]
  unfold writeResponse fcmUpdate fetchTrace
  cases env.update payload.UserID _ <;> rfl

/-! ## Reading the trace of a run -/

theorem sentMessages_append (a b : List Event) :
    sentMessages (a ++ b) = sentMessages a ++ sentMessages b := by
  induction a with
  | nil => rfl
  | cons e a ih => cases e <;> simp [sentMessages, ih]

theorem storeWrites_append (a b : List Event) :
    storeWrites (a ++ b) = storeWrites a ++ storeWrites b := by
  induction a with
  | nil => rfl
  | cons e a ih => cases e <;> simp [storeWrites, ih]

theorem storeReads_append (a b : List Event) :
    storeReads (a ++ b) = storeReads a ++ storeReads b := by
  induction a with
  | nil => rfl
  | cons e a ih => cases e <;> simp [storeReads, ih]

theorem sentMessages_tokenEvents (env : Env) (payload : PushNotificationPayload) :
    ∀ order : List String,
      sentMessages (order.flatMap (tokenEvents env payload)) = order.map (message payload)
  | [] => rfl
  | token :: rest => by
    rw [List.flatMap_cons, sentMessages_append, sentMessages_tokenEvents env payload rest]
    unfold tokenEvents
    cases env.send (message payload token) <;> simp [sentMessages]

theorem storeWrites_tokenEvents (env : Env) (payload : PushNotificationPayload) :
    ∀ order : List String, storeWrites (order.flatMap (tokenEvents env payload)) = []
  | [] => rfl
  | token :: rest => by
    rw [List.flatMap_cons, storeWrites_append, storeWrites_tokenEvents env payload rest]
    unfold tokenEvents
    cases env.send (message payload token) <;> simp [storeWrites]

theorem storeReads_tokenEvents (env : Env) (payload : PushNotificationPayload) :
    ∀ order : List String, storeReads (order.flatMap (tokenEvents env payload)) = []
  | [] => rfl
  | token :: rest => by
    rw [List.flatMap_cons, storeReads_append, storeReads_tokenEvents env payload rest]
    unfold tokenEvents
    cases env.send (message payload token) <;> simp [storeReads]

theorem writtenMaps_of_storeWrites (trace : List Event) (userID : String) (written : TokenMap)
    (h : storeWrites trace = [(userID, fcmUpdate written)]) :
    writtenMaps trace = [written] := by
  simp [writtenMaps, h, fcmUpdate]

/-- A run that reaches the loop, with `range` producing exactly the keys of the
fetched map: the calls are the fetch, then the events of each key in the order
of `range`, then the store write of the surviving map, whose result decides the
response. -/
theorem Handle_run (env : Env) (payload : PushNotificationPayload) (m : TokenMap)
    (hf : Fetches env payload m) (hne : m.keys ≠ [])
    (ho : (env.rangeOrder m).Perm m.keys) :
    Handle env =
      ⟨writeResponse (env.update payload.UserID (fcmUpdate (survivors env payload m))),
        (fetchTrace payload ++ (env.rangeOrder m).flatMap (tokenEvents env payload)) ++
          [Event.update payload.UserID (fcmUpdate (survivors env payload m))]⟩ := by
  rw [Handle_of_fetches env payload m hf hne,
    rangeLoop_map env payload _ m _ ho, rangeLoop_trace env payload _ m _ ho]

/-- A run that reaches the loop, with `range` producing exactly the keys of the
fetched map: the response is decided by the store write of the surviving map,
one message is sent per key in the order of `range`, the store is written once
and read once, both under the payload's user id. -/
theorem Handle_dispatch (env : Env) (payload : PushNotificationPayload) (m : TokenMap)
    (hf : Fetches env payload m) (hne : m.keys ≠ [])
    (ho : (env.rangeOrder m).Perm m.keys) :
    (Handle env).response
        = writeResponse (env.update payload.UserID (fcmUpdate (survivors env payload m))) ∧
      sentMessages (Handle env).trace = (env.rangeOrder m).map (message payload) ∧
      storeWrites (Handle env).trace
        = [(payload.UserID, fcmUpdate (survivors env payload m))] ∧
      storeReads (Handle env).trace = [payload.UserID] := by
  rw [Handle_run env payload m hf hne ho]
  refine ⟨rfl, ?_, ?_, ?_⟩
  · simp [sentMessages_append, sentMessages_tokenEvents, fetchTrace, sentMessages]
  · simp [storeWrites_append, storeWrites_tokenEvents, fetchTrace, storeWrites]
  · simp [storeReads_append, storeReads_tokenEvents, fetchTrace, storeReads]

/-! ## Facts shared by the statements -/

theorem fetches_envWith (tokens : TokenMap)
    (send : String → Except messaging.ProviderError String) (upd : Option GoError)
    (order : List String) :
    Fetches (envWith tokens send upd order) payloadHi tokens :=
  ⟨⟨⟨[]⟩, rfl, rfl⟩, by decide, by decide, by decide, rfl, rfl,
    [("fcm_tokens", .map tokens)], rfl, rfl⟩

theorem survivors_keys_iff_success (env : Env) (payload : PushNotificationPayload)
    (m : TokenMap) (t : String) :
    t ∈ (survivors env payload m).keys ↔
      t ∈ m.keys ∧ classify (env.send (message payload t)) = .Success := by
  rw [mem_keys_survivors, sendFailed_eq_false]

theorem classify_cases (r : Except messaging.ProviderError String) :
    classify r = .Success ∨ classify r = .InvalidToken ∨ classify r = .TransientError := by
  cases r with
  | ok resp => simp [classify]
  | error e => cases h : e.retryable <;> simp [classify, h]

/-! ## C1: which tokens are written back -/

/-- C1, counterexample: user `u1` has the single token `t1`, the send to `t1`
fails with a retryable (transient) error and the store write succeeds.  The
handler writes back the empty map: `t1` is pruned although it is not classified
`InvalidToken`, so the stated property fails for this run. -/
theorem transient_error_prunes_token :
    Fetches (envWith tokensT1 sendAllTransient none ["t1"]) payloadHi tokensT1 ∧
      tokensT1.keys = ["t1"] ∧
      (envWith tokensT1 sendAllTransient none ["t1"]).rangeOrder tokensT1 = ["t1"] ∧
      classify ((envWith tokensT1 sendAllTransient none ["t1"]).send (message payloadHi "t1"))
        = .TransientError ∧
      Handle (envWith tokensT1 sendAllTransient none ["t1"])
        = ⟨.sendStatus 200,
            [.initFirestore, .initMessaging, .get "u1",
              .send (message payloadHi "t1"), .log "Notification not sent: UNAVAILABLE",
              .update "u1" [⟨"fcm_tokens", .map ∅⟩]]⟩ ∧
      ¬ WritesOriginalMinusInvalid (envWith tokensT1 sendAllTransient none ["t1"])
          payloadHi tokensT1 := by
  refine ⟨fetches_envWith _ _ _ _, rfl, rfl, by decide, rfl, ?_⟩
  rintro ⟨written, hw, hkeys⟩
  have hrun : writtenMaps (Handle (envWith tokensT1 sendAllTransient none ["t1"])).trace
      = [∅] := rfl
  rw [hrun] at hw
  have hwritten : written = ∅ := (List.cons.inj hw).1.symm
  have hmem : "t1" ∈ written.keys := (hkeys "t1").mpr ⟨by decide, by decide⟩
  rw [hwritten] at hmem
  exact absurd hmem (by simp)

/-- C1, amended: for a valid request with a non-empty fetched token set, the
token set written back is exactly the original set minus the tokens whose send
returned an error, whether the error classifies as `InvalidToken` or as
`TransientError`; the written tokens are exactly those classified `Success`. -/
theorem Handle_writes_original_minus_failed (env : Env) (payload : PushNotificationPayload)
    (m : TokenMap) (hf : Fetches env payload m) (hne : m.keys ≠ [])
    (ho : (env.rangeOrder m).Perm m.keys) :
    ∃ written : TokenMap, writtenMaps (Handle env).trace = [written] ∧
      (∀ t, t ∈ written.keys ↔
        t ∈ m.keys ∧ classify (env.send (message payload t)) ≠ .InvalidToken ∧
          classify (env.send (message payload t)) ≠ .TransientError) ∧
      (∀ t, t ∈ written.keys ↔
        t ∈ m.keys ∧ classify (env.send (message payload t)) = .Success) := by
  obtain ⟨_, _, hw, _⟩ := Handle_dispatch env payload m hf hne ho
  refine ⟨survivors env payload m, writtenMaps_of_storeWrites _ _ _ hw, ?_,
    survivors_keys_iff_success env payload m⟩
  intro t
  rw [survivors_keys_iff_success]
  rcases classify_cases (env.send (message payload t)) with h | h | h <;> simp [h]

/-- C1, amended, on a run: tokens `t1`, `t2`, the send to `t1` fails, the send
to `t2` succeeds. -/
theorem Handle_writes_original_minus_failed_witness :
    Fetches (envWith tokensT1T2 sendT1Invalid none ["t2", "t1"]) payloadHi tokensT1T2 ∧
      tokensT1T2.keys ≠ [] ∧
      ((envWith tokensT1T2 sendT1Invalid none ["t2", "t1"]).rangeOrder tokensT1T2).Perm
        tokensT1T2.keys ∧
      ∃ written : TokenMap,
        writtenMaps (Handle (envWith tokensT1T2 sendT1Invalid none ["t2", "t1"])).trace
          = [written] ∧
        (∀ t, t ∈ written.keys ↔
          t ∈ tokensT1T2.keys ∧
            classify ((envWith tokensT1T2 sendT1Invalid none ["t2", "t1"]).send
              (message payloadHi t)) ≠ .InvalidToken ∧
            classify ((envWith tokensT1T2 sendT1Invalid none ["t2", "t1"]).send
              (message payloadHi t)) ≠ .TransientError) ∧
        (∀ t, t ∈ written.keys ↔
          t ∈ tokensT1T2.keys ∧
            classify ((envWith tokensT1T2 sendT1Invalid none ["t2", "t1"]).send
              (message payloadHi t)) = .Success) :=
  ⟨fetches_envWith _ _ _ _, by decide, List.Perm.swap _ _ _,
    Handle_writes_original_minus_failed _ payloadHi tokensT1T2 (fetches_envWith _ _ _ _)
      (by decide) (List.Perm.swap _ _ _)⟩

/-! ## C2: successes and invalid tokens -/

/-- C2: for a valid request with a non-empty fetched token set in which every
send either succeeds or fails with an invalid-token error, the store is written
once, under `fcm_tokens`, with a map whose tokens are exactly the original
tokens whose send succeeded (equivalently, the original tokens minus the
invalid ones); when that write succeeds the response is status 200. -/
theorem Handle_writes_successful_tokens (env : Env) (payload : PushNotificationPayload)
    (m : TokenMap) (hf : Fetches env payload m) (hne : m.keys ≠ [])
    (ho : (env.rangeOrder m).Perm m.keys)
    (hs : ∀ t ∈ m.keys, classify (env.send (message payload t)) = .Success ∨
      classify (env.send (message payload t)) = .InvalidToken) :
    ∃ written : TokenMap,
      storeWrites (Handle env).trace
        = [(payload.UserID, [⟨"fcm_tokens", .map written⟩])] ∧
      (∀ t, t ∈ written.keys ↔
        t ∈ m.keys ∧ classify (env.send (message payload t)) = .Success) ∧
      (∀ t, t ∈ written.keys ↔
        t ∈ m.keys ∧ classify (env.send (message payload t)) ≠ .InvalidToken) ∧
      (env.update payload.UserID [⟨"fcm_tokens", .map written⟩] = none →
        (Handle env).response = .sendStatus 200) := by
  obtain ⟨hr, _, hw, _⟩ := Handle_dispatch env payload m hf hne ho
  refine ⟨survivors env payload m, hw, survivors_keys_iff_success env payload m, ?_, ?_⟩
  · intro t
    rw [survivors_keys_iff_success]
    constructor
    · rintro ⟨ht, hsucc⟩
      exact ⟨ht, by simp [hsucc]⟩
    · rintro ⟨ht, hinv⟩
      exact ⟨ht, (hs t ht).resolve_right hinv⟩
  · intro hupd
    rw [hr]
    show writeResponse (env.update payload.UserID [⟨"fcm_tokens", .map _⟩]) = _
    rw [hupd]
    rfl

/-- C2, the scenario of the claim: tokens `t1`, `t2`, `t1` invalid, `t2`
delivered, the write succeeds; the map written holds `t2` only and the
response is status 200. -/
theorem Handle_writes_successful_tokens_witness :
    (∃ written : TokenMap,
      storeWrites (Handle (envWith tokensT1T2 sendT1Invalid none ["t1", "t2"])).trace
        = [(payloadHi.UserID, [⟨"fcm_tokens", .map written⟩])] ∧
      (∀ t, t ∈ written.keys ↔
        t ∈ tokensT1T2.keys ∧
          classify ((envWith tokensT1T2 sendT1Invalid none ["t1", "t2"]).send
            (message payloadHi t)) = .Success) ∧
      (∀ t, t ∈ written.keys ↔
        t ∈ tokensT1T2.keys ∧
          classify ((envWith tokensT1T2 sendT1Invalid none ["t1", "t2"]).send
            (message payloadHi t)) ≠ .InvalidToken) ∧
      ((envWith tokensT1T2 sendT1Invalid none ["t1", "t2"]).update payloadHi.UserID
          [⟨"fcm_tokens", .map written⟩] = none →
        (Handle (envWith tokensT1T2 sendT1Invalid none ["t1", "t2"])).response
          = .sendStatus 200)) ∧
      Handle (envWith tokensT1T2 sendT1Invalid none ["t1", "t2"])
        = ⟨.sendStatus 200,
            [.initFirestore, .initMessaging, .get "u1",
              .send (message payloadHi "t1"), .log "Notification not sent: UNREGISTERED",
              .send (message payloadHi "t2"), .log "Notification sent: projects/p/messages/t2",
              .update "u1" [⟨"fcm_tokens", .map (AList.singleton "t2" "")⟩]]⟩ :=
  ⟨Handle_writes_successful_tokens (envWith tokensT1T2 sendT1Invalid none ["t1", "t2"])
      payloadHi tokensT1T2 (fetches_envWith _ _ _ _) (by decide) (List.Perm.refl _)
      (by decide),
    rfl⟩

/-! ## C3: no registered tokens -/

/-- C3: for a valid request whose fetched token set is empty, the handler sends
nothing, never writes to the store, and hands the no-tokens error to the
framework instead of status 200. -/
theorem Handle_no_tokens (env : Env) (payload : PushNotificationPayload) (m : TokenMap)
    (hf : Fetches env payload m) (hempty : m.keys = []) :
    sentMessages (Handle env).trace = [] ∧
      storeWrites (Handle env).trace = [] ∧
      (Handle env).response
        = .next ("User " ++ payload.UserID ++ " doesn't have FCM tokens") ∧
      (Handle env).response ≠ .sendStatus 200 := by
  obtain ⟨⟨msg, hl, hu⟩, ht, hb, hi, hif, him, user, hg, hlk⟩ := hf
  have hrun : Handle env
      = ⟨.next ("User " ++ payload.UserID ++ " doesn't have FCM tokens"),
          fetchTrace payload⟩ := by
    unfold Handle
    simp only [hl, hu, ht, hb, hi, hif, him, hg, hlk, hempty, or_self, if_false,
      List.length_nil, if_true]
    rfl
  rw [hrun]
  exact ⟨rfl, rfl, rfl, by simp⟩

/-- C3 on a run: user `u1` has an empty token map. -/
theorem Handle_no_tokens_witness :
    Fetches (envWith ∅ sendAllOk none []) payloadHi ∅ ∧
      (∅ : TokenMap).keys = [] ∧
      sentMessages (Handle (envWith ∅ sendAllOk none [])).trace = [] ∧
      storeWrites (Handle (envWith ∅ sendAllOk none [])).trace = [] ∧
      (Handle (envWith ∅ sendAllOk none [])).response
        = .next ("User " ++ payloadHi.UserID ++ " doesn't have FCM tokens") ∧
      (Handle (envWith ∅ sendAllOk none [])).response ≠ .sendStatus 200 :=
  ⟨fetches_envWith _ _ _ _, rfl,
    Handle_no_tokens (envWith ∅ sendAllOk none []) payloadHi ∅ (fetches_envWith _ _ _ _) rfl⟩

/-! ## C4: every send succeeds -/

theorem survivors_eq_self (env : Env) (payload : PushNotificationPayload) (m : TokenMap)
    (hs : ∀ t ∈ m.keys, classify (env.send (message payload t)) = .Success) :
    survivors env payload m = m := by
  apply AList.ext
  show m.entries.filter _ = m.entries
  rw [List.filter_eq_self]
  intro e he
  have := (sendFailed_eq_false env payload e.1).mpr (hs e.1 (List.mem_keys_of_mem he))
  simp [this]

/-- C4: for a valid request with a non-empty fetched token set, if every send
succeeds then the map passed to the store write is the fetched map itself (in
particular it has the same tokens), and if that write succeeds the response is
status 200. -/
theorem Handle_all_sent_writes_same_set (env : Env) (payload : PushNotificationPayload)
    (m : TokenMap) (hf : Fetches env payload m) (hne : m.keys ≠ [])
    (ho : (env.rangeOrder m).Perm m.keys)
    (hs : ∀ t ∈ m.keys, classify (env.send (message payload t)) = .Success) :
    ∃ written : TokenMap,
      storeWrites (Handle env).trace
        = [(payload.UserID, [⟨"fcm_tokens", .map written⟩])] ∧
      written = m ∧ (∀ t, t ∈ written.keys ↔ t ∈ m.keys) ∧
      (env.update payload.UserID [⟨"fcm_tokens", .map written⟩] = none →
        (Handle env).response = .sendStatus 200) := by
  obtain ⟨hr, _, hw, _⟩ := Handle_dispatch env payload m hf hne ho
  rw [survivors_eq_self env payload m hs] at hr hw
  refine ⟨m, hw, rfl, fun _ => Iff.rfl, ?_⟩
  intro hupd
  rw [hr]
  show writeResponse (env.update payload.UserID [⟨"fcm_tokens", .map _⟩]) = _
  rw [hupd]
  rfl

/-- C4 on a run: tokens `t1`, `t2`, both sends succeed, the write succeeds. -/
theorem Handle_all_sent_writes_same_set_witness :
    (∃ written : TokenMap,
      storeWrites (Handle (envWith tokensT1T2 sendAllOk none ["t2", "t1"])).trace
        = [(payloadHi.UserID, [⟨"fcm_tokens", .map written⟩])] ∧
      written = tokensT1T2 ∧ (∀ t, t ∈ written.keys ↔ t ∈ tokensT1T2.keys) ∧
      ((envWith tokensT1T2 sendAllOk none ["t2", "t1"]).update payloadHi.UserID
          [⟨"fcm_tokens", .map written⟩] = none →
        (Handle (envWith tokensT1T2 sendAllOk none ["t2", "t1"])).response
          = .sendStatus 200)) ∧
      Handle (envWith tokensT1T2 sendAllOk none ["t2", "t1"])
        = ⟨.sendStatus 200,
            [.initFirestore, .initMessaging, .get "u1",
              .send (message payloadHi "t2"), .log "Notification sent: projects/p/messages/t2",
              .send (message payloadHi "t1"), .log "Notification sent: projects/p/messages/t1",
              .update "u1" [⟨"fcm_tokens", .map tokensT1T2⟩]]⟩ :=
  ⟨Handle_all_sent_writes_same_set (envWith tokensT1T2 sendAllOk none ["t2", "t1"])
      payloadHi tokensT1T2 (fetches_envWith _ _ _ _) (by decide) (List.Perm.swap _ _ _)
      (by decide),
    rfl⟩

/-! ## C5: one send per token -/

theorem count_map_message (payload : PushNotificationPayload) (t : String) :
    ∀ order : List String,
      (order.map (message payload)).count (message payload t) = order.count t
  | [] => rfl
  | k :: rest => by
    rw [List.map_cons, List.count_cons, List.count_cons, count_map_message payload t rest]
    by_cases h : k = t
    · simp [h]
    · have hm : message payload k ≠ message payload t :=
        fun hm => h (congrArg messaging.Message.Token hm)
      simp [h, hm]

/-- C5: for a valid request with a non-empty fetched token set and whatever the
provider answers, the messages sent are one per token of the original set: the
list of their targets is a rearrangement of the original tokens (so there are
as many sends as tokens), the message built for each original token is sent
exactly once, and every message sent is the one built for its own target. -/
theorem Handle_sends_once_per_token (env : Env) (payload : PushNotificationPayload)
    (m : TokenMap) (hf : Fetches env payload m) (hne : m.keys ≠ [])
    (ho : (env.rangeOrder m).Perm m.keys) :
    ((sentMessages (Handle env).trace).map fun msg => msg.Token).Perm m.keys ∧
      (sentMessages (Handle env).trace).length = m.keys.length ∧
      (∀ t ∈ m.keys, (sentMessages (Handle env).trace).count (message payload t) = 1) ∧
      ∀ msg ∈ sentMessages (Handle env).trace, msg = message payload msg.Token := by
  obtain ⟨_, hsent, _, _⟩ := Handle_dispatch env payload m hf hne ho
  rw [hsent]
  have htok : ((env.rangeOrder m).map (message payload)).map (fun msg => msg.Token)
      = env.rangeOrder m := by
    rw [List.map_map]
    exact List.map_id _
  refine ⟨by rw [htok]; exact ho, by rw [List.length_map, ho.length_eq], ?_, ?_⟩
  · intro t ht
    rw [count_map_message, ho.count_eq]
    exact List.count_eq_one_of_mem m.keys_nodup ht
  · intro msg hmsg
    obtain ⟨t, _, rfl⟩ := List.mem_map.mp hmsg
    rfl

/-- C5 on a run: tokens `t1`, `t2`, visited `t1` first; the send to `t1` fails
and removes `t1` from the map during the iteration, the send to `t2` is still
made. -/
theorem Handle_sends_once_per_token_witness :
    (((sentMessages (Handle (envWith tokensT1T2 sendT1Invalid none ["t1", "t2"])).trace).map
          fun msg => msg.Token).Perm tokensT1T2.keys ∧
      (sentMessages (Handle (envWith tokensT1T2 sendT1Invalid none ["t1", "t2"])).trace).length
        = tokensT1T2.keys.length ∧
      (∀ t ∈ tokensT1T2.keys,
        (sentMessages (Handle (envWith tokensT1T2 sendT1Invalid none ["t1", "t2"])).trace).count
          (message payloadHi t) = 1) ∧
      ∀ msg ∈ sentMessages (Handle (envWith tokensT1T2 sendT1Invalid none ["t1", "t2"])).trace,
        msg = message payloadHi msg.Token) ∧
      sentMessages (Handle (envWith tokensT1T2 sendT1Invalid none ["t1", "t2"])).trace
        = [message payloadHi "t1", message payloadHi "t2"] :=
  ⟨Handle_sends_once_per_token (envWith tokensT1T2 sendT1Invalid none ["t1", "t2"])
      payloadHi tokensT1T2 (fetches_envWith _ _ _ _) (by decide) (List.Perm.refl _),
    by decide⟩

/-! ## C6: the store write fails -/

/-- C6: for a valid request with a non-empty fetched token set, the trace ends
with the single store write, and every token of the original set has been sent
to before it; if that write fails with `err`, the handler hands the persistence
error built from `err` to the framework, not status 200. -/
theorem Handle_write_failure_reported (env : Env) (payload : PushNotificationPayload)
    (m : TokenMap) (hf : Fetches env payload m) (hne : m.keys ≠ [])
    (ho : (env.rangeOrder m).Perm m.keys) :
    ∃ (written : TokenMap) (before : List Event),
      (Handle env).trace
        = before ++ [Event.update payload.UserID [⟨"fcm_tokens", .map written⟩]] ∧
      storeWrites before = [] ∧
      ((sentMessages before).map fun msg => msg.Token).Perm m.keys ∧
      ∀ err, env.update payload.UserID [⟨"fcm_tokens", .map written⟩] = some err →
        (Handle env).response
            = .next ("Error saving fcm_tokens back to user doc: " ++ err) ∧
          (Handle env).response ≠ .sendStatus 200 := by
  refine ⟨survivors env payload m,
    fetchTrace payload ++ (env.rangeOrder m).flatMap (tokenEvents env payload), ?_, ?_, ?_, ?_⟩
  · rw [Handle_run env payload m hf hne ho]
    rfl
  · simp [storeWrites_append, storeWrites_tokenEvents, fetchTrace, storeWrites]
  · have hsent : sentMessages
        (fetchTrace payload ++ (env.rangeOrder m).flatMap (tokenEvents env payload))
        = (env.rangeOrder m).map (message payload) := by
      simp [sentMessages_append, sentMessages_tokenEvents, fetchTrace, sentMessages]
    rw [hsent, List.map_map]
    exact (List.map_id _).symm ▸ ho
  · intro err herr
    rw [Handle_run env payload m hf hne ho]
    show writeResponse (env.update payload.UserID [⟨"fcm_tokens", .map _⟩]) = _ ∧
      writeResponse (env.update payload.UserID [⟨"fcm_tokens", .map _⟩]) ≠ _
    rw [herr]
    exact ⟨rfl, by simp [writeResponse]⟩

/-- C6, the scenario of the claim: tokens `t1`, `t2`, both sends succeed, the
write fails; the response is the persistence error and two sends were made. -/
theorem Handle_write_failure_reported_witness :
    (∃ (written : TokenMap) (before : List Event),
      (Handle (envWith tokensT1T2 sendAllOk (some "unavailable") ["t1", "t2"])).trace
        = before ++ [Event.update payloadHi.UserID [⟨"fcm_tokens", .map written⟩]] ∧
      storeWrites before = [] ∧
      ((sentMessages before).map fun msg => msg.Token).Perm tokensT1T2.keys ∧
      ∀ err,
        (envWith tokensT1T2 sendAllOk (some "unavailable") ["t1", "t2"]).update
            payloadHi.UserID [⟨"fcm_tokens", .map written⟩] = some err →
          (Handle (envWith tokensT1T2 sendAllOk (some "unavailable") ["t1", "t2"])).response
              = .next ("Error saving fcm_tokens back to user doc: " ++ err) ∧
            (Handle (envWith tokensT1T2 sendAllOk (some "unavailable") ["t1", "t2"])).response
              ≠ .sendStatus 200) ∧
      Handle (envWith tokensT1T2 sendAllOk (some "unavailable") ["t1", "t2"])
        = ⟨.next "Error saving fcm_tokens back to user doc: unavailable",
            [.initFirestore, .initMessaging, .get "u1",
              .send (message payloadHi "t1"), .log "Notification sent: projects/p/messages/t1",
              .send (message payloadHi "t2"), .log "Notification sent: projects/p/messages/t2",
              .update "u1" [⟨"fcm_tokens", .map tokensT1T2⟩]]⟩ :=
  ⟨Handle_write_failure_reported
      (envWith tokensT1T2 sendAllOk (some "unavailable") ["t1", "t2"])
      payloadHi tokensT1T2 (fetches_envWith _ _ _ _) (by decide) (List.Perm.refl _),
    rfl⟩

/-! ## C7: validation and fetch failures -/

theorem rangeLoop_trace_extends (env : Env) (payload : PushNotificationPayload) :
    ∀ (order : List String) (m : TokenMap) (tr : List Event),
      ∃ ext, (rangeLoop env payload order (m, tr)).2 = tr ++ ext := by
  intro order
  induction order with
  | nil => intro m tr; exact ⟨[], by simp [rangeLoop]⟩
  | cons token rest ih =>
    intro m tr
    by_cases hmem : token ∈ m.keys
    · cases hs : sendFailed env payload token with
      | false =>
        rw [rangeLoop_cons_ok env payload token rest m tr hmem hs]
        obtain ⟨ext, hext⟩ := ih m (tr ++ tokenEvents env payload token)
        exact ⟨tokenEvents env payload token ++ ext, by rw [hext, List.append_assoc]⟩
      | true =>
        rw [rangeLoop_cons_error env payload token rest m tr hmem hs]
        obtain ⟨ext, hext⟩ := ih (m.erase token) (tr ++ tokenEvents env payload token)
        exact ⟨tokenEvents env payload token ++ ext, by rw [hext, List.append_assoc]⟩
    · rw [rangeLoop, if_neg hmem]
      exact ih m tr

theorem rangeLoop_trace_head (env : Env) (payload : PushNotificationPayload)
    (order : List String) (m : TokenMap) (first : Event) (tr suffix : List Event) :
    ∃ rest, (rangeLoop env payload order (m, first :: tr)).2 ++ suffix = first :: rest := by
  obtain ⟨ext, hext⟩ := rangeLoop_trace_extends env payload order m (first :: tr)
  exact ⟨tr ++ ext ++ suffix, by rw [hext]; simp⟩

/-- C7: for a request whose Pub/Sub message decodes to `payload`:
if title, body or user id is empty, the handler hands the validation error to
the framework and makes no call at all (no store read, no send, no write);
if the three fields are non-empty, the handler passes validation and goes on to
initialise the clients, so a decoded payload is rejected by validation only if
one of the three fields is empty; and if, the clients being initialised, the
store read fails with `err`, the handler hands `err` to the framework, having
read the store once and made no send and no write. -/
theorem Handle_aborts_without_effect (env : Env) (msg : PubSubMessage)
    (payload : PushNotificationPayload) (hl : env.locals = some msg)
    (hu : env.unmarshal msg.Data = .ok payload) :
    ((payload.Title = "" ∨ payload.Body = "" ∨ payload.UserID = "") →
        (Handle env).response
            = .next "Invalid message payload: missing user_id, title or body" ∧
          (Handle env).trace = [] ∧
          storeReads (Handle env).trace = [] ∧
          sentMessages (Handle env).trace = [] ∧
          storeWrites (Handle env).trace = []) ∧
      (¬ (payload.Title = "" ∨ payload.Body = "" ∨ payload.UserID = "") →
        ∃ rest, (Handle env).trace = Event.initFirestore :: rest) ∧
      (¬ (payload.Title = "" ∨ payload.Body = "" ∨ payload.UserID = "") →
        env.initFirestore = none → env.initMessaging = none →
        ∀ err, env.get payload.UserID = .error err →
          (Handle env).response = .next err ∧
            storeReads (Handle env).trace = [payload.UserID] ∧
            sentMessages (Handle env).trace = [] ∧
            storeWrites (Handle env).trace = []) := by
  refine ⟨?_, ?_, ?_⟩
  · intro hbad
    have hrun : Handle env
        = ⟨.next "Invalid message payload: missing user_id, title or body", []⟩ := by
      unfold Handle
      simp only [hl, hu, hbad, if_true]
    rw [hrun]
    exact ⟨rfl, rfl, rfl, rfl, rfl⟩
  · intro hgood
    unfold Handle
    simp only [hl, hu, hgood, if_false]
    repeat' split
    all_goals first
      | exact ⟨_, rfl⟩
      | exact rangeLoop_trace_head env payload _ _ _ _ _
  · intro hgood hif him err hg
    have hrun : Handle env = ⟨.next err, fetchTrace payload⟩ := by
      unfold Handle
      simp only [hl, hu, hgood, hif, him, hg, if_false]
      rfl
    rw [hrun]
    exact ⟨rfl, rfl, rfl, rfl⟩

/-- C7 on two runs: a payload without title is rejected with no call made; a
valid payload whose store read fails is aborted after the read, with no send
and no write. -/
theorem Handle_aborts_without_effect_witness :
    ((Handle (envDecoding payloadNoTitle (.error "unavailable"))).response
          = .next "Invalid message payload: missing user_id, title or body" ∧
        (Handle (envDecoding payloadNoTitle (.error "unavailable"))).trace = [] ∧
        storeReads (Handle (envDecoding payloadNoTitle (.error "unavailable"))).trace = [] ∧
        sentMessages (Handle (envDecoding payloadNoTitle (.error "unavailable"))).trace = [] ∧
        storeWrites (Handle (envDecoding payloadNoTitle (.error "unavailable"))).trace = []) ∧
      ((Handle (envDecoding payloadHi (.error "unavailable"))).response = .next "unavailable" ∧
        storeReads (Handle (envDecoding payloadHi (.error "unavailable"))).trace
          = [payloadHi.UserID] ∧
        sentMessages (Handle (envDecoding payloadHi (.error "unavailable"))).trace = [] ∧
        storeWrites (Handle (envDecoding payloadHi (.error "unavailable"))).trace = []) :=
  ⟨(Handle_aborts_without_effect (envDecoding payloadNoTitle (.error "unavailable")) ⟨[]⟩
      payloadNoTitle rfl rfl).1 (Or.inl rfl),
    (Handle_aborts_without_effect (envDecoding payloadHi (.error "unavailable")) ⟨[]⟩
      payloadHi rfl rfl).2.2 (by decide) rfl rfl "unavailable" rfl⟩

/-! ## C8: the store write is unconditional -/

theorem survivors_eq_empty (env : Env) (payload : PushNotificationPayload) (m : TokenMap)
    (hs : ∀ t ∈ m.keys, classify (env.send (message payload t)) ≠ .Success) :
    survivors env payload m = ∅ := by
  apply AList.ext
  show m.entries.filter _ = []
  rw [List.filter_eq_nil_iff]
  intro e he
  have := (sendFailed_eq_true env payload e.1).mpr (hs e.1 (List.mem_keys_of_mem he))
  simp [this]

/-- C8: for a valid request with a non-empty fetched token set and whatever the
provider answers, the store is read once and written once, both under the
payload's user id, the write setting `fcm_tokens`; when every send fails the
map written is the empty map. -/
theorem Handle_writes_once (env : Env) (payload : PushNotificationPayload)
    (m : TokenMap) (hf : Fetches env payload m) (hne : m.keys ≠ [])
    (ho : (env.rangeOrder m).Perm m.keys) :
    ∃ written : TokenMap,
      storeWrites (Handle env).trace
        = [(payload.UserID, [⟨"fcm_tokens", .map written⟩])] ∧
      storeReads (Handle env).trace = [payload.UserID] ∧
      ((∀ t ∈ m.keys, classify (env.send (message payload t)) ≠ .Success) →
        written = ∅ ∧ written.keys = []) := by
  obtain ⟨_, _, hw, hrd⟩ := Handle_dispatch env payload m hf hne ho
  refine ⟨survivors env payload m, hw, hrd, fun hs => ?_⟩
  rw [survivors_eq_empty env payload m hs]
  exact ⟨rfl, rfl⟩

/-- C8 on a run: tokens `t1`, `t2`, both sends fail; the handler still writes,
and writes the empty map. -/
theorem Handle_writes_once_witness :
    (∃ written : TokenMap,
      storeWrites (Handle (envWith tokensT1T2 sendAllInvalid none ["t1", "t2"])).trace
        = [(payloadHi.UserID, [⟨"fcm_tokens", .map written⟩])] ∧
      storeReads (Handle (envWith tokensT1T2 sendAllInvalid none ["t1", "t2"])).trace
        = [payloadHi.UserID] ∧
      ((∀ t ∈ tokensT1T2.keys,
          classify ((envWith tokensT1T2 sendAllInvalid none ["t1", "t2"]).send
            (message payloadHi t)) ≠ .Success) →
        written = ∅ ∧ written.keys = [])) ∧
      storeWrites (Handle (envWith tokensT1T2 sendAllInvalid none ["t1", "t2"])).trace
        = [("u1", [⟨"fcm_tokens", .map ∅⟩])] :=
  ⟨Handle_writes_once (envWith tokensT1T2 sendAllInvalid none ["t1", "t2"]) payloadHi
      tokensT1T2 (fetches_envWith _ _ _ _) (by decide) (List.Perm.refl _),
    rfl⟩

/-! ## C9: independence of the iteration order -/

theorem fetches_withRangeOrder (env : Env) (order : TokenMap → List String)
    (payload : PushNotificationPayload) (m : TokenMap) (hf : Fetches env payload m) :
    Fetches (withRangeOrder env order) payload m := hf

theorem survivors_withRangeOrder (env : Env) (order : TokenMap → List String)
    (payload : PushNotificationPayload) (m : TokenMap) :
    survivors (withRangeOrder env order) payload m = survivors env payload m := rfl

/-- C9: for a valid request with a non-empty fetched token set and a provider
whose answer depends on the message only, two runs that differ only in the
order in which `range` produces the tokens write the same map under the same
user id and give the same response. -/
theorem Handle_order_independent (env : Env) (payload : PushNotificationPayload)
    (m : TokenMap) (order₁ order₂ : TokenMap → List String)
    (hf : Fetches env payload m) (hne : m.keys ≠ [])
    (ho₁ : (order₁ m).Perm m.keys) (ho₂ : (order₂ m).Perm m.keys) :
    storeWrites (Handle (withRangeOrder env order₁)).trace
        = storeWrites (Handle (withRangeOrder env order₂)).trace ∧
      writtenMaps (Handle (withRangeOrder env order₁)).trace
        = writtenMaps (Handle (withRangeOrder env order₂)).trace ∧
      (Handle (withRangeOrder env order₁)).response
        = (Handle (withRangeOrder env order₂)).response := by
  obtain ⟨hr₁, _, hw₁, _⟩ := Handle_dispatch (withRangeOrder env order₁) payload m
    (fetches_withRangeOrder env order₁ payload m hf) hne ho₁
  obtain ⟨hr₂, _, hw₂, _⟩ := Handle_dispatch (withRangeOrder env order₂) payload m
    (fetches_withRangeOrder env order₂ payload m hf) hne ho₂
  rw [survivors_withRangeOrder] at hr₁ hw₁ hr₂ hw₂
  refine ⟨by rw [hw₁, hw₂], ?_, by rw [hr₁, hr₂]; rfl⟩
  rw [writtenMaps_of_storeWrites _ _ _ hw₁, writtenMaps_of_storeWrites _ _ _ hw₂]

/-- C9 on two runs over tokens `t1`, `t2` (`t1` invalid): visiting `t1` first
or `t2` first writes the same map and gives the same response. -/
theorem Handle_order_independent_witness :
    storeWrites (Handle (withRangeOrder (envWith tokensT1T2 sendT1Invalid none [])
          fun _ => ["t1", "t2"])).trace
        = storeWrites (Handle (withRangeOrder (envWith tokensT1T2 sendT1Invalid none [])
          fun _ => ["t2", "t1"])).trace ∧
      writtenMaps (Handle (withRangeOrder (envWith tokensT1T2 sendT1Invalid none [])
          fun _ => ["t1", "t2"])).trace
        = writtenMaps (Handle (withRangeOrder (envWith tokensT1T2 sendT1Invalid none [])
          fun _ => ["t2", "t1"])).trace ∧
      (Handle (withRangeOrder (envWith tokensT1T2 sendT1Invalid none [])
          fun _ => ["t1", "t2"])).response
        = (Handle (withRangeOrder (envWith tokensT1T2 sendT1Invalid none [])
          fun _ => ["t2", "t1"])).response :=
  Handle_order_independent (envWith tokensT1T2 sendT1Invalid none []) payloadHi tokensT1T2
    (fun _ => ["t1", "t2"]) (fun _ => ["t2", "t1"]) (fetches_envWith _ _ _ _) (by decide)
    (List.Perm.refl _) (List.Perm.swap _ _ _)

/-! ## C10: the message handed to the provider -/

/-- C10: for a valid request with a non-empty fetched token set, every token of
the set is the target of a message handed to the provider, and every message
handed to the provider targets a token of the set, carries the request's title
and body as notification and the request's data map as data, has the fixed icon
and colour as Android notification, and has as Android collapse key the
request's collapse key when that is non-empty and the empty string otherwise. -/
theorem Handle_message_contents (env : Env) (payload : PushNotificationPayload)
    (m : TokenMap) (hf : Fetches env payload m) (hne : m.keys ≠ [])
    (ho : (env.rangeOrder m).Perm m.keys) :
    (∀ t ∈ m.keys, ∃ msg ∈ sentMessages (Handle env).trace, msg.Token = t) ∧
      ∀ msg ∈ sentMessages (Handle env).trace,
        msg.Token ∈ m.keys ∧
          msg.Notification = { Title := payload.Title, Body := payload.Body } ∧
          msg.Data = payload.Data ∧
          msg.Android.Notification = { Icon := androidIcon, Color := androidColor } ∧
          (payload.CollapseKey ≠ "" → msg.Android.CollapseKey = payload.CollapseKey) ∧
          (payload.CollapseKey = "" → msg.Android.CollapseKey = "") := by
  obtain ⟨_, hsent, _, _⟩ := Handle_dispatch env payload m hf hne ho
  rw [hsent]
  constructor
  · intro t ht
    exact ⟨message payload t, List.mem_map.mpr ⟨t, ho.mem_iff.mpr ht, rfl⟩, rfl⟩
  · intro msg hmsg
    obtain ⟨t, ht, rfl⟩ := List.mem_map.mp hmsg
    refine ⟨ho.mem_iff.mp ht, rfl, rfl, ?_, ?_, ?_⟩
    · unfold message androidConfig
      by_cases hc : payload.CollapseKey = "" <;> simp [hc]
    · intro hc
      unfold message androidConfig
      simp [hc]
    · intro hc
      unfold message androidConfig
      simp [hc]

/-- C10 on a run: a request with data and collapse key `news`, one token `t1`. -/
theorem Handle_message_contents_witness :
    ((∀ t ∈ tokensT1.keys,
        ∃ msg ∈ sentMessages
          (Handle (envDecoding payloadNews (.ok [("fcm_tokens", .map tokensT1)]))).trace, msg.Token = t) ∧
      ∀ msg ∈ sentMessages
          (Handle (envDecoding payloadNews (.ok [("fcm_tokens", .map tokensT1)]))).trace,
        msg.Token ∈ tokensT1.keys ∧
          msg.Notification = { Title := payloadNews.Title, Body := payloadNews.Body } ∧
          msg.Data = payloadNews.Data ∧
          msg.Android.Notification = { Icon := androidIcon, Color := androidColor } ∧
          (payloadNews.CollapseKey ≠ "" → msg.Android.CollapseKey = payloadNews.CollapseKey) ∧
          (payloadNews.CollapseKey = "" → msg.Android.CollapseKey = "")) ∧
      sentMessages
          (Handle (envDecoding payloadNews (.ok [("fcm_tokens", .map tokensT1)]))).trace
        = [{ Data := [("uri", "/news/1")]
             Notification := { Title := "Hi", Body := "Bo" }
             Token := "t1"
             Android :=
               { CollapseKey := "news"
                 Notification := { Icon := androidIcon, Color := "#4CB050" } } }] :=
  ⟨Handle_message_contents (envDecoding payloadNews (.ok [("fcm_tokens", .map tokensT1)]))
      payloadNews tokensT1
      ⟨⟨⟨[]⟩, rfl, rfl⟩, by decide, by decide, by decide, rfl, rfl,
        [("fcm_tokens", .map tokensT1)], rfl, rfl⟩
      (by decide) (List.Perm.refl _),
    by decide⟩

end push
